import Mathlib

/-!
Verification of the babylon-relayer repository against its design document.

The development shallowly embeds the parts of the code that the verified
properties concern:

* the Vault smart contract (contracts/Vault.sol together with StBTC.sol):
  deposit registration and stBTC minting, with Solidity checked arithmetic
  modelled by explicit bound checks against 2 ^ 256;
* the staking ledger engine (relayer/src/babylonWatcher.js): finality
  providers, staking positions, rewards, slashing, epoch updates and network
  statistics, with JavaScript floating point arithmetic modelled over the
  rationals and Math.floor as the integer floor, and calls to Math.random
  modelled as explicit oracle inputs;
* the deposit relay controller (relayer/src/evmTrigger.js): pre-processing
  validation and the retry loop, with the chain treated as an external
  collaborator whose answers are explicit inputs.

JavaScript objects used as maps are modelled as association lists keyed by
strings, and Solidity mappings as total functions with the zero-value
default.
-/

namespace BabylonRelayer

/-! ## Vault contract (contracts/Vault.sol, contracts/StBTC.sol) -/

/-- Solidity uint256 modulus; Solidity 0.8 checked arithmetic reverts instead
of wrapping, which the embedding models by explicit bound checks. -/
def UINT256 : Nat := 2 ^ 256

/-- The zero address, used by the `user != address(0)` require. -/
def addressZero : String := "0x0000000000000000000000000000000000000000"

/-- Record stored in `mapping(string => BabylonDeposit) public deposits`. -/
structure BabylonDeposit where
  user : String
  amount : Nat
  btcTxHash : String
  unlockTime : Nat
  finalityProvider : String
  timestamp : Nat
  processed : Bool
deriving Repr, DecidableEq

/-- Default value of a Solidity mapping entry: the all-zero struct. -/
def BabylonDeposit.zero : BabylonDeposit :=
  { user := addressZero, amount := 0, btcTxHash := "", unlockTime := 0,
    finalityProvider := "", timestamp := 0, processed := false }

/-- Combined state of the Vault contract and the StBTC token it mints.
The relayer address is the Vault owner (onlyRelayer requires
`msg.sender == owner()`); the deploy script authorizes the Vault on the
token, recorded here by `vaultAuthorizedOnToken`. -/
structure VaultState where
  owner : String
  paused : Bool
  deposits : String → BabylonDeposit
  userBalances : String → Nat
  authorizedFinalityProviders : String → Bool
  totalDeposits : Nat
  tokenPaused : Bool
  vaultAuthorizedOnToken : Bool
  tokenBalances : String → Nat
  tokenTotalSupply : Nat

/-- Vault.registerBabylonDeposit, guards in source order.  `now` is
`block.timestamp` and `sender` is `msg.sender`. -/
def registerBabylonDeposit (s : VaultState) (sender : String) (now : Nat)
    (btcTxHash user : String) (amount unlockTime : Nat)
    (finalityProvider : String) : Except String VaultState :=
  if sender = s.owner then
    if s.paused = false then
      if 0 < btcTxHash.length then
        if user ≠ addressZero then
          if 0 < amount then
            if now < unlockTime then
              if s.authorizedFinalityProviders finalityProvider = true then
                if (s.deposits btcTxHash).timestamp = 0 then
                  Except.ok { s with deposits := (fun k =>
                    if k = btcTxHash then
                      { user := user, amount := amount,
                        btcTxHash := btcTxHash, unlockTime := unlockTime,
                        finalityProvider := finalityProvider,
                        timestamp := now, processed := false }
                    else s.deposits k) }
                else Except.error "Deposit already registered"
              else Except.error "Unauthorized finality provider"
            else Except.error "Unlock time must be in future"
          else Except.error "Amount must be greater than 0"
        else Except.error "Invalid user address"
      else Except.error "Invalid transaction hash"
    else Except.error "Pausable: paused"
  else Except.error "Only relayer can call"

/-- Vault.mintStBTC followed by the StBTC.mint it performs.  The token amount
is `deposit.amount * 10 ** 10` (8 to 18 decimals); Solidity 0.8 checked
arithmetic is modelled by the explicit 2 ^ 256 bound checks. -/
def mintStBTC (s : VaultState) (sender : String) (btcTxHash : String) :
    Except String VaultState :=
  if sender = s.owner then
    if s.paused = false then
      let d := s.deposits btcTxHash
      if 0 < d.timestamp then
        if d.processed = false then
          let tokenAmount := d.amount * 10 ^ 10
          if tokenAmount < UINT256 ∧
              s.userBalances d.user + tokenAmount < UINT256 ∧
              s.totalDeposits + tokenAmount < UINT256 ∧
              s.tokenTotalSupply + tokenAmount < UINT256 then
            if s.vaultAuthorizedOnToken = true then
              if s.tokenPaused = false then
                Except.ok { s with
                  deposits := fun k =>
                    if k = btcTxHash then { d with processed := true }
                    else s.deposits k,
                  userBalances := fun a =>
                    if a = d.user then s.userBalances a + tokenAmount
                    else s.userBalances a,
                  totalDeposits := s.totalDeposits + tokenAmount,
                  tokenBalances := fun a =>
                    if a = d.user then s.tokenBalances a + tokenAmount
                    else s.tokenBalances a,
                  tokenTotalSupply := s.tokenTotalSupply + tokenAmount }
              else Except.error "Pausable: paused"
            else Except.error "Not authorized"
          else Except.error "arithmetic overflow"
        else Except.error "Deposit already processed"
      else Except.error "Deposit not registered"
    else Except.error "Pausable: paused"
  else Except.error "Only relayer can call"

/-- State after an Except-valued contract call, with a fallback for the
error case (used only to phrase theorems without existentials). -/
def postState (e : Except String VaultState) (dflt : VaultState) : VaultState :=
  match e with
  | Except.ok s => s
  | Except.error _ => dflt

/-- Vault state as just deployed (constructor of Vault.sol): fp1 and fp2
authorized, empty mappings, the deploy script having authorized the vault
on the token. -/
def deployedVault (relayer : String) : VaultState :=
  { owner := relayer, paused := false,
    deposits := fun _ => BabylonDeposit.zero,
    userBalances := fun _ => 0,
    authorizedFinalityProviders := fun p => decide (p = "fp1" ∨ p = "fp2"),
    totalDeposits := 0,
    tokenPaused := false, vaultAuthorizedOnToken := true,
    tokenBalances := fun _ => 0, tokenTotalSupply := 0 }

/-! ## Staking ledger engine (relayer/src/babylonWatcher.js)

Number-valued JavaScript fields are modelled as `Int` (integer amounts,
timestamps) or `ℚ` (rates, reputation, uptime); `Math.floor` is the integer
floor on `ℚ`.  `Date.now()` is an explicit `nowMs` input and
`Math.floor(Date.now() / 1000)` its floor division by 1000.  `Math.random()`
draws are explicit oracle inputs. -/

/-- One entry of a staking positions `slashingEvents` list. -/
structure SlashingEvent where
  amount : Int
  reason : String
  severity : String
  timestamp : Int
deriving Repr, DecidableEq

/-- One entry of a providers `slashingHistory` list (it additionally records
`affectedDelegators`). -/
structure ProviderSlashingEvent where
  amount : Int
  reason : String
  severity : String
  timestamp : Int
  affectedDelegators : Int
deriving Repr, DecidableEq

/-- The `rewards` sub-record of a staking position.  `lastDistribution` is in
seconds while the positions own `timestamp` is in milliseconds, exactly as in
the source. -/
structure PositionRewards where
  accumulated : Int
  lastDistribution : Int
  annualRate : ℚ
deriving Repr, DecidableEq

/-- The `slashing` sub-record of a staking position. -/
structure PositionSlashing where
  penaltyAmount : Int
  slashingEvents : List SlashingEvent
deriving Repr, DecidableEq

/-- A staking position as built by `createStakingPosition`. -/
structure StakingPosition where
  txHash : String
  stakerAddress : String
  amount : Int
  finalityProvider : String
  timestamp : Int
  unlockTime : Int
  votingPower : Int
  status : String
  rewards : PositionRewards
  slashing : PositionSlashing
  delegationTime : Int
  isUnbonding : Bool
deriving Repr, DecidableEq

/-- A finality provider record (the fields the engine reads or writes). -/
structure FinalityProvider where
  id : String
  commission : ℚ
  reputation : ℚ
  uptime : ℚ
  totalDelegated : Int
  delegatorCount : Int
  votingPower : Int
  slashingHistory : List ProviderSlashingEvent
  commissionEarned : Int
  isActive : Bool
deriving Repr, DecidableEq

/-- The `networkStats` aggregate. -/
structure NetworkStats where
  totalStaked : Int
  totalDelegators : Int
  activeFinality : Nat
  averageCommission : ℚ
  totalRewardsDistributed : Int
  totalSlashed : Int
  networkUptime : ℚ
  currentEpoch : Int
deriving Repr, DecidableEq

/-- The staking parameters the verified operations read. -/
structure StakingParams where
  slashingRate : ℚ
  baseRewardRate : ℚ
deriving Repr, DecidableEq

/-- Engine state: the `activeStakers` and `finalityProviders` objects are
association lists keyed by txid and provider id. -/
structure WatcherState where
  activeStakers : List (String × StakingPosition)
  finalityProviders : List (String × FinalityProvider)
  networkStats : NetworkStats
  stakingParams : StakingParams
  currentEpoch : Int
deriving Repr, DecidableEq

/-- In-place update of one key of a JavaScript object modelled as an
association list (assignment to an existing key keeps its place). -/
def updateEntry {α : Type} : List (String × α) → String → α →
    List (String × α)
  | [], _, _ => []
  | (k1, a) :: rest, k, v =>
      (if k1 = k then (k, v) else (k1, a)) :: updateEntry rest k v

/-- calculateVotingPowerBasic: `floor(amount / 1e8 * 1.0 * 1000)`. -/
def calculateVotingPowerBasic (amount : Int) : Int :=
  ⌊(amount : ℚ) / 100000000 * 1 * 1000⌋

/-- calculateVotingPower with an optional provider. -/
def calculateVotingPower (amount : Int) (provider : Option FinalityProvider) :
    Int :=
  match provider with
  | none => calculateVotingPowerBasic amount
  | some fp =>
      ⌊(amount : ℚ) / 100000000 * (fp.reputation / 100) * (fp.uptime / 100)
        * 1000⌋

/-- calculateFinalityProviderVotingPower:
`floor((totalDelegated / 1e8) * (reputation/100) * (uptime/100) * 1000)`. -/
def calculateFinalityProviderVotingPower (fp : FinalityProvider) : Int :=
  ⌊(fp.totalDelegated : ℚ) / 100000000 * (fp.reputation / 100)
    * (fp.uptime / 100) * 1000⌋

/-- Milliseconds in a year as used by calculateRewards:
`365.25 * 24 * 3600 * 1000`. -/
def yearMs : ℚ := 31557600000

/-- calculateRewards: the elapsed time is measured from `position.timestamp`
(the creation time, in milliseconds), the result is
`floor((amount * baseRewardRate * timeRatio) * multiplier)` with the
multiplier `(reputation/100) * max(0.8, uptime/100)` when the positions
provider exists and `1.0` otherwise. -/
def calculateRewards (fps : List (String × FinalityProvider))
    (params : StakingParams) (nowMs : Int) (p : StakingPosition) : Int :=
  let timeRatio : ℚ := ((nowMs - p.timestamp : Int) : ℚ) / yearMs
  let baseRewards : ℚ := (p.amount : ℚ) * params.baseRewardRate * timeRatio
  let multiplier : ℚ :=
    match List.lookup p.finalityProvider fps with
    | some fp => fp.reputation / 100 * max (4 / 5 : ℚ) (fp.uptime / 100)
    | none => 1
  ⌊baseRewards * multiplier⌋

/-- One loop body of distributeStakingRewards: reward the position when it is
active and not unbonding and the computed reward is positive, crediting the
providers commission.  The accumulator carries the rebuilt positions list,
the provider map and the running distributed total. -/
def rewardStep (params : StakingParams) (nowMs currentTime : Int)
    (acc : List (String × StakingPosition) ×
      List (String × FinalityProvider) × Int)
    (kv : String × StakingPosition) :
    List (String × StakingPosition) ×
      List (String × FinalityProvider) × Int :=
  let (done, fps, total) := acc
  let (k, p) := kv
  if p.status = "active" ∧ p.isUnbonding = false then
    let reward := calculateRewards fps params nowMs p
    if 0 < reward then
      let p2 := { p with rewards :=
        { p.rewards with
          accumulated := p.rewards.accumulated + reward,
          lastDistribution := currentTime } }
      let fps2 :=
        match List.lookup p.finalityProvider fps with
        | some fp =>
            updateEntry fps p.finalityProvider
              { fp with commissionEarned :=
                fp.commissionEarned + ⌊(reward : ℚ) * fp.commission⌋ }
        | none => fps
      (done ++ [(k, p2)], fps2, total + reward)
    else (done ++ [(k, p)], fps, total)
  else (done ++ [(k, p)], fps, total)

/-- distributeStakingRewards: walk all positions, accumulate rewards, then
add the distributed total onto `networkStats.totalRewardsDistributed`
(no recomputation of the other statistics). -/
def distributeStakingRewards (nowMs : Int) (s : WatcherState) : WatcherState :=
  let currentTime := Int.fdiv nowMs 1000
  let r := s.activeStakers.foldl
    (rewardStep s.stakingParams nowMs currentTime)
    ([], s.finalityProviders, 0)
  { s with
    activeStakers := r.1, finalityProviders := r.2.1,
    networkStats := { s.networkStats with
                      totalRewardsDistributed :=
                        s.networkStats.totalRewardsDistributed + r.2.2 } }

/-- One loop body of executeSlashing: positions delegated to the slashed
provider and active lose `floor(amount * slashingRate)` and record the
event; the second component is the slashed amount. -/
def slashPosition (fpId reason severity : String) (rate : ℚ) (nowS : Int)
    (p : StakingPosition) : StakingPosition × Int :=
  if p.finalityProvider = fpId ∧ p.status = "active" then
    let slashingAmount := ⌊(p.amount : ℚ) * rate⌋
    ({ p with
       amount := p.amount - slashingAmount,
       slashing :=
         { penaltyAmount := p.slashing.penaltyAmount + slashingAmount,
           slashingEvents := p.slashing.slashingEvents ++
             [{ amount := slashingAmount, reason := reason,
                severity := severity, timestamp := nowS }] } },
     slashingAmount)
  else (p, 0)

/-- executeSlashing.  `rand` is the `Math.random()` draw deciding severity
(major when above 0.7), `nowS` the current time in seconds.  A missing
provider id returns the state unchanged (the source only logs a warning).
The provider loses the summed slashed amount from `totalDelegated` and 10
reputation points floored at 10; `networkStats.totalSlashed` is incremented
and nothing else in the statistics is touched. -/
def executeSlashing (fpId reason : String) (rand : ℚ) (nowS : Int)
    (s : WatcherState) : WatcherState :=
  match List.lookup fpId s.finalityProviders with
  | none => s
  | some fp =>
    let severity := if (7 : ℚ) / 10 < rand then "major" else "minor"
    let rate :=
      if severity = "major" then s.stakingParams.slashingRate
      else s.stakingParams.slashingRate * (1 / 2)
    let slashed := s.activeStakers.map fun kv =>
      (kv.1, slashPosition fpId reason severity rate nowS kv.2)
    let positions := slashed.map fun kv => (kv.1, kv.2.1)
    let totalSlashed := (slashed.map fun kv => kv.2.2).sum
    let fp2 := { fp with
      totalDelegated := fp.totalDelegated - totalSlashed,
      reputation := max 10 (fp.reputation - 10),
      slashingHistory := fp.slashingHistory ++
        [{ amount := totalSlashed, reason := reason, severity := severity,
           timestamp := nowS,
           affectedDelegators := (s.activeStakers.length : Int) }] }
    { s with
      activeStakers := positions,
      finalityProviders := updateEntry s.finalityProviders fpId fp2,
      networkStats := { s.networkStats with
                        totalSlashed :=
                          s.networkStats.totalSlashed + totalSlashed } }

/-- updateNetworkStats: one pass over `activeStakers` accumulating total
stake and delegator count of active positions, then averages over the
active providers; `networkUptime` is only overwritten when there is at
least one active provider. -/
def updateNetworkStats (s : WatcherState) : WatcherState :=
  let t := s.activeStakers.foldl
    (fun acc kv =>
      if kv.2.status = "active" then (acc.1 + kv.2.amount, acc.2 + 1)
      else acc)
    ((0 : Int), (0 : Int))
  let activeProviders :=
    (s.finalityProviders.map Prod.snd).filter fun fp => fp.isActive = true
  let averageCommission : ℚ :=
    if 0 < activeProviders.length then
      (activeProviders.foldl (fun sum fp => sum + fp.commission) 0) /
        (activeProviders.length : ℚ)
    else 0
  let base := { s.networkStats with
    totalStaked := t.1, totalDelegators := t.2,
    activeFinality := activeProviders.length,
    averageCommission := averageCommission }
  if 0 < activeProviders.length then
    { s with networkStats := { base with networkUptime :=
        (activeProviders.foldl (fun sum fp => sum + fp.uptime) 0) /
          (activeProviders.length : ℚ) } }
  else { s with networkStats := base }

/-- updateProviderPerformance: per provider, an uptime drift from a
`Math.random()` draw clamped into `[90, 100]`, then a reputation drift
driven by the new uptime, then a voting power recomputation.  `draw` gives
each providers random sample. -/
def updateProviderPerformance (draw : String → ℚ) (s : WatcherState) :
    WatcherState :=
  { s with finalityProviders := s.finalityProviders.map fun kv =>
      let fp := kv.2
      let uptimeChange := (draw kv.1 - 1 / 2) * 2
      let uptime2 := max 90 (min 100 (fp.uptime + uptimeChange))
      let reputation2 :=
        if 98 < uptime2 then min 100 (fp.reputation + 1 / 10)
        else if uptime2 < 95 then max 10 (fp.reputation - 1 / 2)
        else fp.reputation
      let fp2 := { fp with uptime := uptime2, reputation := reputation2 }
      (kv.1, { fp2 with
        votingPower := calculateFinalityProviderVotingPower fp2 }) }

/-- updateEpoch: bump the epoch counter, update provider performance, then
recompute the network statistics. -/
def updateEpoch (draw : String → ℚ) (s : WatcherState) : WatcherState :=
  let s1 := { s with
    currentEpoch := s.currentEpoch + 1,
    networkStats := { s.networkStats with
                      currentEpoch := s.currentEpoch + 1 } }
  updateNetworkStats (updateProviderPerformance draw s1)

/-- createStakingPosition: build a position from the first output of a
transaction (txid, output value and address are the inputs the source
reads), insert it into `activeStakers`, and when the chosen provider exists
raise its delegation figures and recompute its voting power. -/
def createStakingPosition (nowMs : Int) (txid staker : String) (value : Int)
    (fpId : String) (s : WatcherState) : WatcherState :=
  let p : StakingPosition :=
    { txHash := txid, stakerAddress := staker, amount := value,
      finalityProvider := fpId, timestamp := nowMs,
      unlockTime := Int.fdiv nowMs 1000 + 86400 * 30,
      votingPower :=
        calculateVotingPower value (List.lookup fpId s.finalityProviders),
      status := "active",
      rewards := { accumulated := 0,
                   lastDistribution := Int.fdiv nowMs 1000,
                   annualRate := s.stakingParams.baseRewardRate },
      slashing := { penaltyAmount := 0, slashingEvents := [] },
      delegationTime := Int.fdiv nowMs 1000, isUnbonding := false }
  let stakers :=
    match List.lookup txid s.activeStakers with
    | some _ => updateEntry s.activeStakers txid p
    | none => s.activeStakers ++ [(txid, p)]
  let fps :=
    match List.lookup fpId s.finalityProviders with
    | some fp =>
        let fp2 := { fp with
          totalDelegated := fp.totalDelegated + value,
          delegatorCount := fp.delegatorCount + 1 }
        updateEntry s.finalityProviders fpId
          { fp2 with votingPower := calculateFinalityProviderVotingPower fp2 }
    | none => s.finalityProviders
  { s with activeStakers := stakers, finalityProviders := fps }

/-- Inputs of one executeSlashing call: provider id, reason, severity draw
and time. -/
structure SlashCall where
  fpId : String
  reason : String
  rand : ℚ
  nowS : Int

/-- A finite sequence of executeSlashing calls. -/
def runSlashings (calls : List SlashCall) (s : WatcherState) : WatcherState :=
  match calls with
  | [] => s
  | c :: rest => runSlashings rest (executeSlashing c.fpId c.reason c.rand c.nowS s)

/-- One timer-driven engine step mutating provider performance fields: an
epoch update (with its per-provider random draws) or a slashing
execution. -/
inductive EngineStep where
  | epoch (draw : String → ℚ)
  | slash (fpId reason : String) (rand : ℚ) (nowS : Int)

/-- A finite sequence of engine steps. -/
def runEngine (steps : List EngineStep) (s : WatcherState) : WatcherState :=
  match steps with
  | [] => s
  | EngineStep.epoch draw :: rest => runEngine rest (updateEpoch draw s)
  | EngineStep.slash fpId reason rand nowS :: rest =>
      runEngine rest (executeSlashing fpId reason rand nowS s)

/-- Every staking position holds a non-negative amount. -/
def allAmountsNonneg (s : WatcherState) : Prop :=
  ∀ kv ∈ s.activeStakers, 0 ≤ kv.2.amount

/-- Every finality provider has reputation in [10, 100] and uptime in
[90, 100]. -/
def providersWithinBounds (s : WatcherState) : Prop :=
  ∀ kv ∈ s.finalityProviders,
    10 ≤ kv.2.reputation ∧ kv.2.reputation ≤ 100 ∧
    90 ≤ kv.2.uptime ∧ kv.2.uptime ≤ 100

/-- Modelled from the spec: total staked recomputed from the live
collection, the sum of the amounts of active positions. -/
def specTotalStaked (l : List (String × StakingPosition)) : Int :=
  ((l.filter fun kv => kv.2.status = "active").map fun kv => kv.2.amount).sum

/-- Modelled from the spec: delegator count recomputed from the live
collection, the number of active positions. -/
def specTotalDelegators (l : List (String × StakingPosition)) : Int :=
  ((l.filter fun kv => kv.2.status = "active").length : Int)

/-- Active providers of a provider collection. -/
def specActiveProviders (l : List (String × FinalityProvider)) :
    List FinalityProvider :=
  (l.map Prod.snd).filter fun fp => fp.isActive = true

/-- Modelled from the spec: average commission over active providers. -/
def specAverageCommission (l : List (String × FinalityProvider)) : ℚ :=
  ((specActiveProviders l).map (fun fp => fp.commission)).sum /
    ((specActiveProviders l).length : ℚ)

/-- Modelled from the spec: network uptime as the average uptime over
active providers. -/
def specNetworkUptime (l : List (String × FinalityProvider)) : ℚ :=
  ((specActiveProviders l).map (fun fp => fp.uptime)).sum /
    ((specActiveProviders l).length : ℚ)

/-- Modelled from the spec claim: a reward accrual of
`floor(amount * rate * yearFraction * (reputation/100) * max(0.8, uptime/100))`
with the year fraction measured from the last-distribution timestamp (in
seconds), as claim C3 words it. -/
def claimedRewardFromLastDistribution (amount : Int) (rate : ℚ)
    (nowS lastDistribution : Int) (rep uptime : ℚ) : Int :=
  ⌊(amount : ℚ) * rate * (((nowS - lastDistribution : Int) : ℚ) / 31557600)
    * (rep / 100 * max (4 / 5 : ℚ) (uptime / 100))⌋

/-- First staking position of the engine state (theorem phrasing helper). -/
def headPosition (s : WatcherState) (dflt : StakingPosition) :
    StakingPosition :=
  match s.activeStakers with
  | [] => dflt
  | kv :: _ => kv.2

/-- Reputation of a provider by id, zero when absent (theorem phrasing
helper). -/
def providerReputation (s : WatcherState) (fpId : String) : ℚ :=
  match List.lookup fpId s.finalityProviders with
  | some fp => fp.reputation
  | none => 0

/-- Voting power of a provider by id, zero when absent (theorem phrasing
helper). -/
def providerVotingPower (s : WatcherState) (fpId : String) : Int :=
  match List.lookup fpId s.finalityProviders with
  | some fp => fp.votingPower
  | none => 0

/-! ## Deposit relay controller (relayer/src/evmTrigger.js) -/

/-- Hex digit test matching the character class of `/^[a-fA-F0-9]{64}$/`. -/
def isHexDigit (c : Char) : Bool :=
  c.isDigit || ('a' ≤ c && c ≤ 'f') || ('A' ≤ c && c ≤ 'F')

/-- String prefix test over the underlying character list. -/
def strStarts (s p : String) : Bool :=
  List.isPrefixOf p.toList s.toList

/-- The strict 64-hex-character transaction hash pattern. -/
def isRealHash (h : String) : Bool :=
  h.length == 64 && h.toList.all isHexDigit

/-- The recognized test hash prefixes. -/
def isTestHash (h : String) : Bool :=
  strStarts h "test_" || strStarts h "duplicate_test_" ||
  strStarts h "integration_test_" || strStarts h "perf_test_"

/-- Answer of `getDepositStatus` for an existing deposit, as far as the
validation reads it. -/
structure DepositStatus where
  depositExists : Bool
  processed : Bool
deriving Repr, DecidableEq

/-- Minimum relayer balance required for gas: 0.005 ether in wei. -/
def minBalanceWei : Int := 5 * 10 ^ 15

/-- validateDepositBeforeProcessing, checks in source order.  The chain
reads it performs (existing deposit, provider authorization, wallet
balance) are explicit inputs; the trailing gas estimation is only logged
and never fails the validation, so it is not modelled.  `nowS` is the
current time in seconds. -/
def validateDepositBeforeProcessing (existing : Option DepositStatus)
    (isAuthorized : Bool) (balance : Int) (nowS : Int)
    (btcTxHash userAddress : String) (amount unlockTime : Int) :
    Except String Unit :=
  if (match existing with
      | some d => d.depositExists && d.processed
      | none => false) = true then
    Except.error ("Deposit already processed: " ++ btcTxHash)
  else if btcTxHash.length = 0 then
    Except.error "Invalid Bitcoin transaction hash"
  else if ¬ (isRealHash btcTxHash = true ∨ isTestHash btcTxHash = true) then
    Except.error "Invalid Bitcoin transaction hash"
  else if userAddress.length = 0 ∨ ¬ strStarts userAddress "0x" = true ∨
      userAddress.length ≠ 42 then
    Except.error "Invalid Ethereum user address"
  else if amount = 0 ∨ amount ≤ 0 ∨ 21000000 * 100000000 < amount then
    Except.error "Invalid amount"
  else if unlockTime = 0 ∨ unlockTime ≤ nowS then
    Except.error "Invalid unlock time - must be in the future"
  else if isAuthorized = false then
    Except.error ("Finality provider not authorized")
  else if balance < minBalanceWei then
    Except.error ("Insufficient ETH balance for gas")
  else Except.ok ()

/-- Observable outcome of processBabylonDeposit: success flag, error
message, and whether the chain register and mint transactions were
submitted. -/
structure ProcessOutcome where
  success : Bool
  error : Option String
  registerCalled : Bool
  mintCalled : Bool
deriving Repr, DecidableEq

/-- processBabylonDeposit: validation first; only when it passes is the
register transaction submitted, and only when registration confirms is the
mint transaction submitted.  The chain outcomes of the two transactions are
explicit inputs. -/
def processBabylonDeposit (existing : Option DepositStatus)
    (isAuthorized : Bool) (balance : Int) (nowS : Int)
    (btcTxHash userAddress : String) (amount unlockTime : Int)
    (registerOutcome mintOutcome : Except String Unit) : ProcessOutcome :=
  match validateDepositBeforeProcessing existing isAuthorized balance nowS
      btcTxHash userAddress amount unlockTime with
  | Except.error e =>
      { success := false, error := some e,
        registerCalled := false, mintCalled := false }
  | Except.ok _ =>
      match registerOutcome with
      | Except.error e =>
          { success := false, error := some e,
            registerCalled := true, mintCalled := false }
      | Except.ok _ =>
          match mintOutcome with
          | Except.error e =>
              { success := false, error := some e,
                registerCalled := true, mintCalled := true }
          | Except.ok _ =>
              { success := true, error := none,
                registerCalled := true, mintCalled := true }

/-- Result of one processBabylonDeposit attempt as seen by the retry loop. -/
structure AttemptResult where
  success : Bool
  errorMessage : String
deriving Repr, DecidableEq

/-- Outcome of processBabylonDepositWithRetry together with the number of
attempts actually made. -/
structure RetryOutcome where
  success : Bool
  errorMessage : Option String
  attemptsMade : Nat
deriving Repr, DecidableEq

/-- Loop of processBabylonDepositWithRetry: attempts run from number
`attempt` while `remaining` attempts are left; any failed attempt, whatever
its error, is followed by another attempt until the budget is exhausted. -/
def retryLoop (results : Nat → AttemptResult) (attempt remaining made : Nat)
    (lastError : String) : RetryOutcome :=
  match remaining with
  | 0 =>
      { success := false,
        errorMessage := some ("All retry attempts failed: " ++ lastError),
        attemptsMade := made }
  | r + 1 =>
      let res := results attempt
      if res.success = true then
        { success := true, errorMessage := none, attemptsMade := made + 1 }
      else retryLoop results (attempt + 1) r (made + 1) res.errorMessage

/-- processBabylonDepositWithRetry: run attempts 1 .. maxRetries, where
`results` gives the outcome of each numbered attempt. -/
def processBabylonDepositWithRetry (results : Nat → AttemptResult)
    (maxRetries : Nat) : RetryOutcome :=
  retryLoop results 1 maxRetries 0 ""

/-! ## Concrete states for witnesses and counterexamples -/

/-- Finality provider Alpha as seeded by enhanceFinalityProviders, after one
delegation of 1 BTC (100000000 satoshis). -/
def providerAlpha : FinalityProvider :=
  { id := "fp1", commission := 1 / 20, reputation := 95, uptime := 99,
    totalDelegated := 100000000, delegatorCount := 1, votingPower := 940,
    slashingHistory := [], commissionEarned := 0, isActive := true }

/-- Finality provider Beta as seeded by enhanceFinalityProviders. -/
def providerBeta : FinalityProvider :=
  { id := "fp2", commission := 3 / 100, reputation := 92, uptime := 97,
    totalDelegated := 0, delegatorCount := 0, votingPower := 0,
    slashingHistory := [], commissionEarned := 0, isActive := true }

/-- Finality provider Gamma as seeded by enhanceFinalityProviders. -/
def providerGamma : FinalityProvider :=
  { id := "fp3", commission := 2 / 25, reputation := 88, uptime := 95,
    totalDelegated := 0, delegatorCount := 0, votingPower := 0,
    slashingHistory := [], commissionEarned := 0, isActive := true }

/-- A staking position of 1 BTC delegated to fp1, created at time 0 and
last rewarded at second 31557600 (one model year after creation). -/
def positionA : StakingPosition :=
  { txHash := "txa", stakerAddress := "bc1qdemo", amount := 100000000,
    finalityProvider := "fp1", timestamp := 0, unlockTime := 2592000,
    votingPower := 940, status := "active",
    rewards := { accumulated := 0, lastDistribution := 31557600,
                 annualRate := 3 / 50 },
    slashing := { penaltyAmount := 0, slashingEvents := [] },
    delegationTime := 0, isUnbonding := false }

/-- Default staking parameters of the source: 5 percent slashing rate, 6
percent base annual reward rate. -/
def demoParams : StakingParams :=
  { slashingRate := 1 / 20, baseRewardRate := 3 / 50 }

/-- Network statistics consistent with `positionA` and the three seeded
providers. -/
def demoStats : NetworkStats :=
  { totalStaked := 100000000, totalDelegators := 1, activeFinality := 3,
    averageCommission := 4 / 75, totalRewardsDistributed := 0,
    totalSlashed := 0, networkUptime := 97, currentEpoch := 1 }

/-- Engine state with the three seeded providers and one active 1 BTC
position delegated to fp1. -/
def demoWatcher : WatcherState :=
  { activeStakers := [("txa", positionA)],
    finalityProviders :=
      [("fp1", providerAlpha), ("fp2", providerBeta), ("fp3", providerGamma)],
    networkStats := demoStats, stakingParams := demoParams,
    currentEpoch := 1 }

/-- Two concrete slashing calls (a minor and a major one). -/
def demoSlashCalls : List SlashCall :=
  [{ fpId := "fp1", reason := "double_sign", rand := 1 / 2, nowS := 100 },
   { fpId := "fp2", reason := "downtime", rand := 9 / 10, nowS := 200 }]

/-- A concrete engine step sequence: one epoch update, one slashing. -/
def demoEngineSteps : List EngineStep :=
  [EngineStep.epoch (fun _ => 1),
   EngineStep.slash "fp1" "double_sign" (1 / 2) 100]

/-- A destination address of the right shape: 0x followed by 40 hex
characters. -/
def demoAddress : String := "0x1234567890123456789012345678901234567890"

/-- A 42-character address passing the source validation while not being
0x followed by 40 hex characters. -/
def nonHexAddress : String := "0xzzzzzzzzzzzzzzzzzzzzzzzzzzzzzzzzzzzzzzzz"

/-- Attempt outcomes that always fail with the duplicate-registration
error. -/
def duplicateFailure : Nat → AttemptResult :=
  fun _ => { success := false, errorMessage := "Deposit already registered" }

/-! ## Helper lemmas -/

theorem lookup_updateEntry {α : Type} (l : List (String × α)) (k : String)
    (v : α) (h : (List.lookup k l).isSome = true) :
    List.lookup k (updateEntry l k v) = some v := by
  induction l with
  | nil => simp [List.lookup] at h
  | cons kv rest ih =>
    obtain ⟨k1, a⟩ := kv
    simp only [updateEntry]
    by_cases hk : k1 = k
    · subst hk
      rw [if_pos rfl]
      simp [List.lookup]
    · have hne : (k == k1) = false := by
        rw [beq_eq_false_iff_ne]
        exact fun he => hk he.symm
      rw [if_neg hk]
      simp only [List.lookup, hne] at h ⊢
      exact ih h

theorem floor_mul_le_self_of_le_one (a : Int) (q : ℚ) (ha : 0 ≤ a)
    (hq : q ≤ 1) : ⌊(a : ℚ) * q⌋ ≤ a := by
  have h1 : (a : ℚ) * q ≤ (a : ℚ) := by
    have ha' : (0 : ℚ) ≤ (a : ℚ) := by exact_mod_cast ha
    exact mul_le_of_le_one_right ha' hq
  calc ⌊(a : ℚ) * q⌋ ≤ ⌊(a : ℚ)⌋ := Int.floor_le_floor h1
    _ = a := Int.floor_intCast a

theorem slashPosition_amount_nonneg (fpId reason severity : String)
    (rate : ℚ) (nowS : Int) (p : StakingPosition) (hp : 0 ≤ p.amount)
    (hrate : rate ≤ 1) :
    0 ≤ (slashPosition fpId reason severity rate nowS p).1.amount := by
  unfold slashPosition
  split
  · simpa using Int.sub_nonneg.mpr
      (floor_mul_le_self_of_le_one p.amount rate hp hrate)
  · exact hp

theorem executeSlashing_stakingParams (fpId reason : String) (rand : ℚ)
    (nowS : Int) (s : WatcherState) :
    (executeSlashing fpId reason rand nowS s).stakingParams =
      s.stakingParams := by
  unfold executeSlashing
  cases List.lookup fpId s.finalityProviders <;> rfl

theorem executeSlashing_preserves_nonneg (fpId reason : String) (rand : ℚ)
    (nowS : Int) (s : WatcherState)
    (hrate : s.stakingParams.slashingRate < 1) (h : allAmountsNonneg s) :
    allAmountsNonneg (executeSlashing fpId reason rand nowS s) := by
  unfold executeSlashing
  cases hl : List.lookup fpId s.finalityProviders with
  | none => exact h
  | some fp =>
    intro kv hkv
    simp only [List.map_map, List.mem_map, Function.comp] at hkv
    obtain ⟨orig, horig, hkveq⟩ := hkv
    subst hkveq
    have hrate2 : ∀ sev : String,
        (if sev = "major" then s.stakingParams.slashingRate
          else s.stakingParams.slashingRate * (1 / 2)) ≤ 1 := by
      intro sev
      split
      · exact le_of_lt hrate
      · linarith
    exact slashPosition_amount_nonneg _ _ _ _ _ orig.2 (h orig horig)
      (hrate2 _)

/-! ## Claim theorems -/

/-- Claim C10: calling executeSlashing with a provider id absent from the
finality-provider map leaves the whole engine state unchanged (the source
only logs a warning and returns). -/
theorem slashing_unknown_provider_noop (fpId reason : String) (rand : ℚ)
    (nowS : Int) (s : WatcherState)
    (h : List.lookup fpId s.finalityProviders = none) :
    executeSlashing fpId reason rand nowS s = s := by
  unfold executeSlashing
  rw [h]

/-- Claim C10, witness: the demo state is untouched by slashing an unknown
provider id. -/
theorem slashing_unknown_provider_noop_witness :
    executeSlashing "fpX" "double_sign" (1 / 2) 0 demoWatcher =
      demoWatcher :=
  slashing_unknown_provider_noop "fpX" "double_sign" (1 / 2) 0 demoWatcher
    (by decide)

/-- Claim C2: after any finite sequence of executeSlashing calls with any
providers, reasons and severity draws, every staking position keeps a
non-negative amount, because each step subtracts
`floor(amount * slashingRate)` at a rate below one. -/
theorem staking_amount_nonneg_after_slashings (calls : List SlashCall)
    (s : WatcherState) (hrate : s.stakingParams.slashingRate < 1)
    (h : allAmountsNonneg s) : allAmountsNonneg (runSlashings calls s) := by
  induction calls generalizing s with
  | nil => exact h
  | cons c rest ih =>
    refine ih _ ?_ ?_
    · rw [executeSlashing_stakingParams]
      exact hrate
    · exact executeSlashing_preserves_nonneg c.fpId c.reason c.rand c.nowS s
        hrate h

/-- Claim C2, witness: a minor and a major slashing on the demo state keep
all amounts non-negative. -/
theorem staking_amount_nonneg_after_slashings_witness :
    allAmountsNonneg (runSlashings demoSlashCalls demoWatcher) :=
  staking_amount_nonneg_after_slashings demoSlashCalls demoWatcher
    (by norm_num [demoWatcher, demoParams])
    (by unfold allAmountsNonneg; decide)

/-- Helper for claim C5: a retry loop over attempts that all fail makes
exactly as many attempts as its remaining budget. -/
theorem retryLoop_all_fail (results : Nat → AttemptResult)
    (h : ∀ i, (results i).success = false) :
    ∀ (remaining attempt made : Nat) (lastError : String),
      (retryLoop results attempt remaining made lastError).success = false ∧
      (retryLoop results attempt remaining made lastError).attemptsMade =
        made + remaining := by
  intro remaining
  induction remaining with
  | zero => intro attempt made lastError; simp [retryLoop]
  | succ r ih =>
    intro attempt made lastError
    have hres := h attempt
    simp only [retryLoop, hres]
    have := ih (attempt + 1) (made + 1) (results attempt).errorMessage
    simp only [Bool.false_eq_true, if_false]
    refine ⟨this.1, ?_⟩
    rw [this.2]
    omega

/-- Claim C5, counterexample: a deposit whose every attempt fails with the
duplicate-registration error is retried anyway — the loop makes all 3
configured attempts, not 1, so the error is not terminal on the relay
side. -/
theorem retry_duplicate_error_counterexample :
    (processBabylonDepositWithRetry duplicateFailure 3).attemptsMade = 3 ∧
    (processBabylonDepositWithRetry duplicateFailure 3).errorMessage =
      some "All retry attempts failed: Deposit already registered" ∧
    (3 : Nat) ≠ 1 := by
  refine ⟨rfl, rfl, by decide⟩

/-- Claim C5, amended: the retry loop treats no error as terminal — every
failed attempt, duplicate-registration and validation errors included, is
re-attempted until the configured maximum attempt count is exhausted. -/
theorem retry_reattempts_all_errors (results : Nat → AttemptResult)
    (maxRetries : Nat) (h : ∀ i, (results i).success = false) :
    (processBabylonDepositWithRetry results maxRetries).success = false ∧
    (processBabylonDepositWithRetry results maxRetries).attemptsMade =
      maxRetries := by
  have := retryLoop_all_fail results h maxRetries 1 0 ""
  unfold processBabylonDepositWithRetry
  simpa using this

/-- Claim C5, witness: with an always-failing attempt and budget 2 the loop
makes exactly 2 attempts. -/
theorem retry_reattempts_all_errors_witness :
    (processBabylonDepositWithRetry duplicateFailure 2).success = false ∧
    (processBabylonDepositWithRetry duplicateFailure 2).attemptsMade = 2 :=
  retry_reattempts_all_errors duplicateFailure 2 (fun _ => rfl)

/-- Helper: executeSlashing on a state with a single active position
delegated to the slashed provider, with a severity draw at or below 0.7
(minor): the position loses `floor(amount * (slashingRate * 0.5))` and the
provider loses 10 reputation points floored at 10. -/
theorem executeSlashing_singleton_minor (s : WatcherState)
    (fpId reason k : String) (rand : ℚ) (nowS : Int) (p : StakingPosition)
    (fp : FinalityProvider) (hstakers : s.activeStakers = [(k, p)])
    (hfp : List.lookup fpId s.finalityProviders = some fp)
    (hrand : rand ≤ 7 / 10) (hmatch : p.finalityProvider = fpId)
    (hactive : p.status = "active") :
    (headPosition (executeSlashing fpId reason rand nowS s) positionA).amount
      = p.amount -
        ⌊(p.amount : ℚ) * (s.stakingParams.slashingRate * (1 / 2))⌋ ∧
    providerReputation (executeSlashing fpId reason rand nowS s) fpId =
      max 10 (fp.reputation - 10) := by
  have hnm : ¬ ((7 : ℚ) / 10 < rand) := not_lt.mpr hrand
  simp only [executeSlashing, hfp]
  rw [if_neg hnm]
  rw [if_neg (show ¬ ("minor" = "major") by decide)]
  rw [hstakers]
  simp only [List.map_cons, List.map_nil]
  simp only [slashPosition, if_pos (And.intro hmatch hactive)]
  constructor
  · simp [headPosition]
  · simp only [providerReputation]
    rw [lookup_updateEntry _ _ _ (by rw [hfp]; rfl)]

/-- Claim C6: with minor severity the applied slashing rate is half the
configured base rate; concretely, a single active 1 BTC position at base
rate 5 percent ends at 97500000 and the provider loses exactly 10
reputation points, floored at 10. -/
theorem minor_slashing_half_rate (s : WatcherState) (fpId reason k : String)
    (rand : ℚ) (nowS : Int) (p : StakingPosition) (fp : FinalityProvider)
    (hstakers : s.activeStakers = [(k, p)])
    (hfp : List.lookup fpId s.finalityProviders = some fp)
    (hrand : rand ≤ 7 / 10) (hmatch : p.finalityProvider = fpId)
    (hactive : p.status = "active") :
    (headPosition (executeSlashing fpId reason rand nowS s) positionA).amount
      = p.amount -
        ⌊(p.amount : ℚ) * (s.stakingParams.slashingRate * (1 / 2))⌋ ∧
    providerReputation (executeSlashing fpId reason rand nowS s) fpId =
      max 10 (fp.reputation - 10) ∧
    (headPosition (executeSlashing "fp1" "double_sign" (1 / 2) 0 demoWatcher)
        positionA).amount = 97500000 ∧
    providerReputation (executeSlashing "fp1" "double_sign" (1 / 2) 0
        demoWatcher) "fp1" = 95 - 10 := by
  have hg := executeSlashing_singleton_minor s fpId reason k rand nowS p fp
    hstakers hfp hrand hmatch hactive
  have hc := executeSlashing_singleton_minor demoWatcher "fp1" "double_sign"
    "txa" (1 / 2) 0 positionA providerAlpha rfl (by rfl) (by norm_num) rfl rfl
  refine ⟨hg.1, hg.2, ?_, ?_⟩
  · rw [hc.1]
    have hfl : (((100000000 : Int) : ℚ) *
        (demoWatcher.stakingParams.slashingRate * (1 / 2))) =
        ((2500000 : Int) : ℚ) := by
      norm_num [demoWatcher, demoParams]
    simp only [positionA]
    rw [hfl, Int.floor_intCast]
    norm_num
  · rw [hc.2]
    have : (95 : ℚ) - 10 = 85 := by norm_num
    simp only [providerAlpha]
    rw [max_eq_right (by norm_num : (10 : ℚ) ≤ 95 - 10)]

/-- Claim C6, witness: the concrete minor slashing scenario on the demo
state. -/
theorem minor_slashing_half_rate_witness :
    (headPosition (executeSlashing "fp1" "double_sign" (1 / 2) 0 demoWatcher)
        positionA).amount = 97500000 ∧
    providerReputation (executeSlashing "fp1" "double_sign" (1 / 2) 0
        demoWatcher) "fp1" = 95 - 10 :=
  ⟨(minor_slashing_half_rate demoWatcher "fp1" "double_sign" "txa" (1 / 2) 0
      positionA providerAlpha rfl (by rfl) (by norm_num) rfl rfl).2.2.1,
   (minor_slashing_half_rate demoWatcher "fp1" "double_sign" "txa" (1 / 2) 0
      positionA providerAlpha rfl (by rfl) (by norm_num) rfl rfl).2.2.2⟩

/-- Claim C7: a providers voting power is recomputed as
`floor((totalDelegated / 1e8) * (reputation/100) * (uptime/100) * 1000)`,
both as the standalone formula and as stored on the provider after a
delegation is created; for delegated amount 100000000 with reputation 95
and uptime 99 it equals 940. -/
theorem provider_voting_power_formula :
    (∀ fp : FinalityProvider, calculateFinalityProviderVotingPower fp =
      ⌊(fp.totalDelegated : ℚ) / 100000000 * (fp.reputation / 100) *
        (fp.uptime / 100) * 1000⌋) ∧
    (∀ (s : WatcherState) (nowMs value : Int) (txid staker fpId : String)
        (fp : FinalityProvider),
      List.lookup fpId s.finalityProviders = some fp →
      providerVotingPower
          (createStakingPosition nowMs txid staker value fpId s) fpId =
        ⌊((fp.totalDelegated + value : Int) : ℚ) / 100000000 *
          (fp.reputation / 100) * (fp.uptime / 100) * 1000⌋) ∧
    calculateFinalityProviderVotingPower providerAlpha = 940 := by
  refine ⟨fun fp => rfl, ?_, ?_⟩
  · intro s nowMs value txid staker fpId fp hfp
    simp only [createStakingPosition, providerVotingPower, hfp]
    rw [lookup_updateEntry _ _ _ (by rw [hfp]; rfl)]
    rfl
  · have h1 : ((providerAlpha.totalDelegated : ℚ) / 100000000 *
        (providerAlpha.reputation / 100) * (providerAlpha.uptime / 100) *
        1000) = 1881 / 2 := by
      norm_num [providerAlpha]
    rw [show calculateFinalityProviderVotingPower providerAlpha =
      ⌊(providerAlpha.totalDelegated : ℚ) / 100000000 *
        (providerAlpha.reputation / 100) * (providerAlpha.uptime / 100) *
        1000⌋ from rfl, h1]
    rw [Int.floor_eq_iff]
    norm_num

/-- Claim C7, witness: creating a 1 BTC delegation to fp2 in the demo state
stores the formula value on the provider. -/
theorem provider_voting_power_formula_witness :
    providerVotingPower
        (createStakingPosition 0 "txb" "bc1qnew" 100000000 "fp2" demoWatcher)
        "fp2" =
      ⌊((providerBeta.totalDelegated + 100000000 : Int) : ℚ) / 100000000 *
        (providerBeta.reputation / 100) * (providerBeta.uptime / 100) *
        1000⌋ :=
  provider_voting_power_formula.2.1 demoWatcher 0 100000000 "txb" "bc1qnew"
    "fp2" providerBeta (by rfl)

/-- Helper: membership in an updated association list comes from the new
entry or the original list. -/
theorem mem_updateEntry {α : Type} (l : List (String × α)) (k : String)
    (v : α) (kv : String × α) (hkv : kv ∈ updateEntry l k v) :
    kv = (k, v) ∨ kv ∈ l := by
  induction l with
  | nil => simp [updateEntry] at hkv
  | cons kv1 rest ih =>
    obtain ⟨k1, a⟩ := kv1
    simp only [updateEntry] at hkv
    rcases List.mem_cons.mp hkv with hhead | htail
    · by_cases hk : k1 = k
      · rw [if_pos hk] at hhead
        exact Or.inl hhead
      · rw [if_neg hk] at hhead
        exact Or.inr (List.mem_cons.mpr (Or.inl hhead))
    · rcases ih htail with h1 | h2
      · exact Or.inl h1
      · exact Or.inr (List.mem_cons.mpr (Or.inr h2))

/-- Helper: a successful lookup names an element of the list. -/
theorem lookup_mem {α : Type} (l : List (String × α)) (k : String) (v : α)
    (h : List.lookup k l = some v) : (k, v) ∈ l := by
  induction l with
  | nil => simp [List.lookup] at h
  | cons kv rest ih =>
    obtain ⟨k1, a⟩ := kv
    rw [List.lookup] at h
    cases hbeq : (k == k1) with
    | true =>
        rw [hbeq] at h
        have hv : a = v := by simpa using h
        have hkk : k = k1 := beq_iff_eq.mp hbeq
        subst hv
        subst hkk
        exact List.mem_cons_self _ _
    | false =>
        rw [hbeq] at h
        exact List.mem_cons_of_mem _ (ih h)

/-- Helper: updateNetworkStats only rewrites the statistics record. -/
theorem updateNetworkStats_collections (s : WatcherState) :
    (updateNetworkStats s).activeStakers = s.activeStakers ∧
    (updateNetworkStats s).finalityProviders = s.finalityProviders := by
  simp only [updateNetworkStats]
  split <;> exact ⟨rfl, rfl⟩

/-- Helper: one epoch performance update keeps reputation in [10, 100] and
uptime in [90, 100]. -/
theorem updateProviderPerformance_bounds (draw : String → ℚ)
    (s : WatcherState) (h : providersWithinBounds s) :
    providersWithinBounds (updateProviderPerformance draw s) := by
  intro kv hkv
  simp only [updateProviderPerformance, List.mem_map] at hkv
  obtain ⟨orig, horig, heq⟩ := hkv
  obtain ⟨hr1, hr2, hu1, hu2⟩ := h orig horig
  subst heq
  refine ⟨?_, ?_, ?_, ?_⟩
  · dsimp only
    split_ifs with h1 h2
    · exact le_min (by norm_num) (by linarith)
    · exact le_max_left _ _
    · exact hr1
  · dsimp only
    split_ifs with h1 h2
    · exact min_le_left _ _
    · exact max_le (by norm_num) (by linarith)
    · exact hr2
  · dsimp only
    exact le_max_left _ _
  · dsimp only
    exact max_le (by norm_num) (min_le_left _ _)

/-- Helper: one slashing execution keeps reputation in [10, 100] and uptime
in [90, 100]. -/
theorem executeSlashing_bounds (fpId reason : String) (rand : ℚ)
    (nowS : Int) (s : WatcherState) (h : providersWithinBounds s) :
    providersWithinBounds (executeSlashing fpId reason rand nowS s) := by
  unfold executeSlashing
  cases hl : List.lookup fpId s.finalityProviders with
  | none => exact h
  | some fp =>
    intro kv hkv
    obtain ⟨hr1, hr2, hu1, hu2⟩ := h (fpId, fp) (lookup_mem _ _ _ hl)
    rcases mem_updateEntry _ _ _ kv hkv with heq | hmem
    · subst heq
      refine ⟨le_max_left _ _, max_le (by norm_num) (by linarith), hu1, hu2⟩
    · exact h kv hmem

/-- Helper: one epoch update keeps reputation in [10, 100] and uptime in
[90, 100]. -/
theorem updateEpoch_bounds (draw : String → ℚ) (s : WatcherState)
    (h : providersWithinBounds s) :
    providersWithinBounds (updateEpoch draw s) := by
  unfold updateEpoch
  intro kv hkv
  rw [(updateNetworkStats_collections _).2] at hkv
  exact updateProviderPerformance_bounds draw _ h kv hkv

/-- Claim C8: after any finite sequence of epoch updates (with any random
draws) and slashing executions, every finality provider keeps reputation
within [10, 100] and uptime within [90, 100]. -/
theorem provider_bounds_after_engine_steps (steps : List EngineStep)
    (s : WatcherState) (h : providersWithinBounds s) :
    providersWithinBounds (runEngine steps s) := by
  induction steps generalizing s with
  | nil => exact h
  | cons st rest ih =>
    cases st with
    | epoch draw => exact ih _ (updateEpoch_bounds draw s h)
    | slash fpId reason rand nowS =>
        exact ih _ (executeSlashing_bounds fpId reason rand nowS s h)

/-- Claim C8, witness: an epoch update followed by a slashing on the demo
state keeps all providers within bounds. -/
theorem provider_bounds_after_engine_steps_witness :
    providersWithinBounds (runEngine demoEngineSteps demoWatcher) :=
  provider_bounds_after_engine_steps demoEngineSteps demoWatcher (by
    intro kv hkv
    simp only [demoWatcher, List.mem_cons, List.not_mem_nil, or_false]
      at hkv
    rcases hkv with h | h | h <;> subst h <;>
      refine ⟨?_, ?_, ?_, ?_⟩ <;>
      norm_num [providerAlpha, providerBeta, providerGamma])

/-- Helper: one reward step appends exactly one position with the same key
and amount. -/
theorem rewardStep_parts (params : StakingParams) (nowMs ct : Int)
    (acc : List (String × StakingPosition) ×
      List (String × FinalityProvider) × Int)
    (kv : String × StakingPosition) :
    ∃ (q : StakingPosition) (fps2 : List (String × FinalityProvider))
      (total2 : Int),
      rewardStep params nowMs ct acc kv = (acc.1 ++ [(kv.1, q)], fps2,
        total2) ∧ q.amount = kv.2.amount := by
  obtain ⟨done, fps, total⟩ := acc
  obtain ⟨k, p⟩ := kv
  unfold rewardStep
  dsimp only
  split_ifs with h1 h2
  · exact ⟨_, _, _, rfl, rfl⟩
  · exact ⟨p, fps, total, rfl, rfl⟩
  · exact ⟨p, fps, total, rfl, rfl⟩

/-- Helper: the reward-distribution fold never changes position keys or
amounts. -/
theorem rewardStep_foldl_amounts (params : StakingParams) (nowMs ct : Int) :
    ∀ (l done : List (String × StakingPosition))
      (fps : List (String × FinalityProvider)) (total : Int),
      ((l.foldl (rewardStep params nowMs ct) (done, fps, total)).1.map
        fun kv => (kv.1, kv.2.amount)) =
      (done.map fun kv => (kv.1, kv.2.amount)) ++
        (l.map fun kv => (kv.1, kv.2.amount)) := by
  intro l
  induction l with
  | nil => intro done fps total; simp
  | cons kv rest ih =>
    intro done fps total
    obtain ⟨k, p⟩ := kv
    simp only [List.foldl_cons]
    obtain ⟨q, fps2, total2, hstep, hamt⟩ :=
      rewardStep_parts params nowMs ct (done, fps, total) (k, p)
    rw [hstep, ih]
    simp [hamt]

/-- Helper: a reward-distribution run never changes position keys or
amounts. -/
theorem distribute_amounts_unchanged (nowMs : Int) (s : WatcherState) :
    ((distributeStakingRewards nowMs s).activeStakers.map
      fun kv => (kv.1, kv.2.amount)) =
    (s.activeStakers.map fun kv => (kv.1, kv.2.amount)) := by
  unfold distributeStakingRewards
  dsimp only
  rw [rewardStep_foldl_amounts]
  simp

/-- Helper: a reward-distribution run on a single-position state: a
positive computed reward is added to the accumulated rewards and the
last-distribution timestamp advances; a non-positive one leaves the
position untouched. -/
theorem distribute_singleton (k : String) (p : StakingPosition)
    (fps : List (String × FinalityProvider)) (stats : NetworkStats)
    (params : StakingParams) (epoch : Int) (nowMs : Int)
    (hactive : p.status = "active") (hunb : p.isUnbonding = false) :
    (0 < calculateRewards fps params nowMs p →
      headPosition (distributeStakingRewards nowMs
        ⟨[(k, p)], fps, stats, params, epoch⟩) positionA =
      { p with rewards := { p.rewards with
          accumulated :=
            p.rewards.accumulated + calculateRewards fps params nowMs p,
          lastDistribution := Int.fdiv nowMs 1000 } }) ∧
    (calculateRewards fps params nowMs p ≤ 0 →
      headPosition (distributeStakingRewards nowMs
        ⟨[(k, p)], fps, stats, params, epoch⟩) positionA = p) := by
  unfold distributeStakingRewards
  dsimp only
  simp only [List.foldl_cons, List.foldl_nil]
  unfold rewardStep
  dsimp only
  rw [if_pos (And.intro hactive hunb)]
  constructor
  · intro hr
    rw [if_pos hr]
    simp [headPosition]
  · intro hr
    rw [if_neg (not_lt.mpr hr)]
    simp [headPosition]

/-- Helper: the reward computed for the demo position one model year after
its creation. -/
theorem demoReward_eq :
    calculateRewards demoWatcher.finalityProviders demoParams 31557600000
      positionA = 5643000 := by
  have hlk : List.lookup positionA.finalityProvider
      demoWatcher.finalityProviders = some providerAlpha := by rfl
  simp only [calculateRewards, hlk]
  have hmax : max (4 / 5 : ℚ) (providerAlpha.uptime / 100) =
      providerAlpha.uptime / 100 := by
    rw [max_eq_right]
    norm_num [providerAlpha]
  rw [hmax]
  have heval : ((positionA.amount : ℚ) * demoParams.baseRewardRate *
      (((31557600000 - positionA.timestamp : Int) : ℚ) / yearMs) *
      (providerAlpha.reputation / 100 * (providerAlpha.uptime / 100))) =
      ((5643000 : Int) : ℚ) := by
    norm_num [positionA, providerAlpha, demoParams, yearMs]
  rw [heval, Int.floor_intCast]

/-- Claim C3, counterexample: after a reward-distribution run one model
year after creation with the last distribution just now, the code accrues
5643000 (time measured from the position creation timestamp), while the
claimed formula (time measured from the last-distribution timestamp)
yields 0. -/
theorem reward_year_fraction_counterexample :
    (headPosition (distributeStakingRewards 31557600000 demoWatcher)
        positionA).rewards.accumulated = 5643000 ∧
    claimedRewardFromLastDistribution positionA.amount
        demoParams.baseRewardRate (Int.fdiv 31557600000 1000)
        positionA.rewards.lastDistribution providerAlpha.reputation
        providerAlpha.uptime = 0 ∧
    (5643000 : Int) ≠ 0 := by
  refine ⟨?_, ?_, by decide⟩
  · have hW : demoWatcher = ⟨[("txa", positionA)],
        demoWatcher.finalityProviders, demoStats, demoParams, 1⟩ := rfl
    rw [hW]
    rw [(distribute_singleton "txa" positionA demoWatcher.finalityProviders
      demoStats demoParams 1 31557600000 rfl rfl).1
      (by rw [demoReward_eq]; norm_num)]
    rw [demoReward_eq]
    rfl
  · unfold claimedRewardFromLastDistribution
    have hzero : ((Int.fdiv 31557600000 1000 -
        positionA.rewards.lastDistribution : Int) : ℚ) = 0 := by
      norm_num [positionA, Int.fdiv]
    rw [hzero]
    norm_num

/-- Claim C3, amended: one reward-distribution run accrues exactly
`floor(amount * baseAnnualRate * yearFraction * (reputation/100) *
max(0.8, uptime/100))` where the year fraction is the elapsed time since
the position CREATION timestamp (in milliseconds), not the
last-distribution timestamp; the run never mutates any position amount,
and when the accrued reward is positive it advances the last-distribution
timestamp to now (in seconds). -/
theorem reward_accrual_from_creation_time (k : String) (p : StakingPosition)
    (fps : List (String × FinalityProvider)) (stats : NetworkStats)
    (params : StakingParams) (epoch : Int) (nowMs : Int)
    (fp : FinalityProvider) (hactive : p.status = "active")
    (hunb : p.isUnbonding = false)
    (hfp : List.lookup p.finalityProvider fps = some fp) :
    calculateRewards fps params nowMs p =
      ⌊(p.amount : ℚ) * params.baseRewardRate *
        (((nowMs - p.timestamp : Int) : ℚ) / yearMs) *
        (fp.reputation / 100 * max (4 / 5 : ℚ) (fp.uptime / 100))⌋ ∧
    (∀ (t : Int) (s : WatcherState),
      ((distributeStakingRewards t s).activeStakers.map
        fun kv => (kv.1, kv.2.amount)) =
      (s.activeStakers.map fun kv => (kv.1, kv.2.amount))) ∧
    (0 < calculateRewards fps params nowMs p →
      (headPosition (distributeStakingRewards nowMs
        ⟨[(k, p)], fps, stats, params, epoch⟩) positionA).rewards.accumulated
        = p.rewards.accumulated + calculateRewards fps params nowMs p ∧
      (headPosition (distributeStakingRewards nowMs
        ⟨[(k, p)], fps, stats, params, epoch⟩)
        positionA).rewards.lastDistribution = Int.fdiv nowMs 1000) ∧
    (calculateRewards fps params nowMs p ≤ 0 →
      headPosition (distributeStakingRewards nowMs
        ⟨[(k, p)], fps, stats, params, epoch⟩) positionA = p) := by
  have hs := distribute_singleton k p fps stats params epoch nowMs hactive
    hunb
  refine ⟨?_, ?_, ?_, hs.2⟩
  · unfold calculateRewards
    rw [hfp]
  · intro t s
    exact distribute_amounts_unchanged t s
  · intro hr
    rw [hs.1 hr]
    exact ⟨rfl, rfl⟩

/-- Claim C3, witness: the accrual on the demo position one model year
after creation. -/
theorem reward_accrual_from_creation_time_witness :
    (headPosition (distributeStakingRewards 31557600000
      ⟨[("txa", positionA)], demoWatcher.finalityProviders, demoStats,
        demoParams, 1⟩) positionA).rewards.accumulated =
      positionA.rewards.accumulated +
        calculateRewards demoWatcher.finalityProviders demoParams
          31557600000 positionA ∧
    (headPosition (distributeStakingRewards 31557600000
      ⟨[("txa", positionA)], demoWatcher.finalityProviders, demoStats,
        demoParams, 1⟩) positionA).rewards.lastDistribution =
      Int.fdiv 31557600000 1000 :=
  (reward_accrual_from_creation_time "txa" positionA
      demoWatcher.finalityProviders demoStats demoParams 1 31557600000
      providerAlpha rfl rfl (by rfl)).2.2.1
    (by rw [demoReward_eq]; norm_num)

/-- Helper: the one-pass accumulation of updateNetworkStats equals the
recomputed total stake and delegator count. -/
theorem foldl_active_pair :
    ∀ (l : List (String × StakingPosition)) (a b : Int),
      (l.foldl (fun acc kv =>
        if kv.2.status = "active" then (acc.1 + kv.2.amount, acc.2 + 1)
        else acc) (a, b)) =
      (a + specTotalStaked l, b + specTotalDelegators l) := by
  intro l
  induction l with
  | nil =>
    intro a b
    simp [specTotalStaked, specTotalDelegators]
  | cons kv rest ih =>
    intro a b
    simp only [List.foldl_cons]
    by_cases hact : kv.2.status = "active"
    · rw [if_pos hact, ih]
      simp only [specTotalStaked, specTotalDelegators, List.filter_cons,
        hact]
      simp [Prod.ext_iff]
      constructor
      · ring
      · ring
    · rw [if_neg hact, ih]
      simp only [specTotalStaked, specTotalDelegators, List.filter_cons,
        hact]
      simp

/-- Helper: a tail-accumulating fold of rationals equals the mapped sum. -/
theorem foldl_add_comm_q (f : FinalityProvider → ℚ) :
    ∀ (l : List FinalityProvider) (c : ℚ),
      l.foldl (fun sum fp => sum + f fp) c = c + (l.map f).sum := by
  intro l
  induction l with
  | nil => intro c; simp
  | cons fp rest ih =>
    intro c
    simp only [List.foldl_cons, List.map_cons, List.sum_cons]
    rw [ih]
    ring

/-- Helper: updateNetworkStats leaves the statistics record equal to the
values recomputed from the live collections. -/
theorem updateNetworkStats_consistent (s : WatcherState) :
    (updateNetworkStats s).networkStats.totalStaked =
      specTotalStaked s.activeStakers ∧
    (updateNetworkStats s).networkStats.totalDelegators =
      specTotalDelegators s.activeStakers ∧
    (updateNetworkStats s).networkStats.activeFinality =
      (specActiveProviders s.finalityProviders).length ∧
    (specActiveProviders s.finalityProviders ≠ [] →
      (updateNetworkStats s).networkStats.averageCommission =
        specAverageCommission s.finalityProviders ∧
      (updateNetworkStats s).networkStats.networkUptime =
        specNetworkUptime s.finalityProviders) := by
  simp only [updateNetworkStats, foldl_active_pair, zero_add,
    foldl_add_comm_q]
  have hap : ((s.finalityProviders.map Prod.snd).filter
      fun fp => fp.isActive = true) = specActiveProviders
        s.finalityProviders := rfl
  by_cases hlen : 0 < ((s.finalityProviders.map Prod.snd).filter
      fun fp => fp.isActive = true).length
  · rw [if_pos hlen, if_pos hlen]
    exact ⟨rfl, rfl, rfl, fun _ => ⟨rfl, rfl⟩⟩
  · rw [if_neg hlen, if_neg hlen]
    refine ⟨rfl, rfl, rfl, fun hne => absurd ?_ hlen⟩
    rw [hap]
    exact List.length_pos.mpr hne

/-- Helper: executeSlashing only increments the cumulative slashed total in
the statistics; totalStaked is left as it was. -/
theorem executeSlashing_totalStaked (fpId reason : String) (rand : ℚ)
    (nowS : Int) (s : WatcherState) :
    (executeSlashing fpId reason rand nowS s).networkStats.totalStaked =
      s.networkStats.totalStaked := by
  unfold executeSlashing
  cases List.lookup fpId s.finalityProviders <;> rfl

/-- Helper: distributeStakingRewards only increments the cumulative rewards
total in the statistics; totalStaked is left as it was. -/
theorem distribute_totalStaked (nowMs : Int) (s : WatcherState) :
    (distributeStakingRewards nowMs s).networkStats.totalStaked =
      s.networkStats.totalStaked := rfl

/-- Claim C9, counterexample: starting from statistics consistent with the
collections, one minor slashing of fp1 reduces the only position to
97500000 but leaves networkStats.totalStaked at 100000000, so the
statistics after the slashing step are not the recomputed value. -/
theorem network_stats_stale_after_slashing :
    (executeSlashing "fp1" "double_sign" (1 / 2) 100
      demoWatcher).networkStats.totalStaked = 100000000 ∧
    specTotalStaked (executeSlashing "fp1" "double_sign" (1 / 2) 100
      demoWatcher).activeStakers = 97500000 ∧
    (100000000 : Int) ≠ 97500000 := by
  refine ⟨?_, ?_, by decide⟩
  · rw [executeSlashing_totalStaked]
    rfl
  · have hlk : List.lookup "fp1" demoWatcher.finalityProviders =
        some providerAlpha := by rfl
    simp only [executeSlashing, hlk]
    rw [if_neg (show ¬ ((7 : ℚ) / 10 < 1 / 2) by norm_num)]
    rw [if_neg (show ¬ ("minor" = "major") by decide)]
    have hstk : demoWatcher.activeStakers = [("txa", positionA)] := rfl
    rw [hstk]
    simp only [List.map_cons, List.map_nil]
    simp only [slashPosition, if_pos (show positionA.finalityProvider =
      "fp1" ∧ positionA.status = "active" from ⟨rfl, rfl⟩)]
    simp only [specTotalStaked, List.filter_cons, List.filter_nil]
    have hfl : (⌊(positionA.amount : ℚ) *
        (demoWatcher.stakingParams.slashingRate * (1 / 2))⌋ : Int) =
        2500000 := by
      have : ((positionA.amount : ℚ) *
          (demoWatcher.stakingParams.slashingRate * (1 / 2))) =
          ((2500000 : Int) : ℚ) := by
        norm_num [positionA, demoWatcher, demoParams]
      rw [this, Int.floor_intCast]
    simp only [hfl]
    norm_num [positionA]

/-- Claim C9, amended: the epoch-update step recomputes NetworkStats from
the live collections (total staked, delegator count, active provider
count, and the averages whenever an active provider exists), but the
slashing and reward-distribution steps only increment their cumulative
counters and leave totalStaked untouched, so after a slashing that reduced
position amounts the aggregate no longer equals the recomputed value. -/
theorem network_stats_recompute_on_epoch :
    (∀ (draw : String → ℚ) (s : WatcherState),
      (updateEpoch draw s).networkStats.totalStaked =
        specTotalStaked (updateEpoch draw s).activeStakers ∧
      (updateEpoch draw s).networkStats.totalDelegators =
        specTotalDelegators (updateEpoch draw s).activeStakers ∧
      (updateEpoch draw s).networkStats.activeFinality =
        (specActiveProviders (updateEpoch draw s).finalityProviders).length ∧
      (specActiveProviders (updateEpoch draw s).finalityProviders ≠ [] →
        (updateEpoch draw s).networkStats.averageCommission =
          specAverageCommission (updateEpoch draw s).finalityProviders ∧
        (updateEpoch draw s).networkStats.networkUptime =
          specNetworkUptime (updateEpoch draw s).finalityProviders)) ∧
    (∀ (fpId reason : String) (rand : ℚ) (nowS : Int) (s : WatcherState),
      (executeSlashing fpId reason rand nowS s).networkStats.totalStaked =
        s.networkStats.totalStaked) ∧
    (∀ (nowMs : Int) (s : WatcherState),
      (distributeStakingRewards nowMs s).networkStats.totalStaked =
        s.networkStats.totalStaked) := by
  refine ⟨?_, executeSlashing_totalStaked, distribute_totalStaked⟩
  intro draw s
  have hcoll := updateNetworkStats_collections
    (updateProviderPerformance draw { s with
      currentEpoch := s.currentEpoch + 1,
      networkStats := { s.networkStats with
                        currentEpoch := s.currentEpoch + 1 } })
  have hcons := updateNetworkStats_consistent
    (updateProviderPerformance draw { s with
      currentEpoch := s.currentEpoch + 1,
      networkStats := { s.networkStats with
                        currentEpoch := s.currentEpoch + 1 } })
  unfold updateEpoch
  rw [hcoll.1, hcoll.2]
  exact hcons

/-- Claim C9, witness: the epoch-update consistency on the demo state. -/
theorem network_stats_recompute_on_epoch_witness :
    (updateEpoch (fun _ => 1) demoWatcher).networkStats.totalStaked =
      specTotalStaked (updateEpoch (fun _ => 1)
        demoWatcher).activeStakers ∧
    (updateEpoch (fun _ => 1) demoWatcher).networkStats.totalDelegators =
      specTotalDelegators (updateEpoch (fun _ => 1)
        demoWatcher).activeStakers :=
  ⟨(network_stats_recompute_on_epoch.1 (fun _ => 1) demoWatcher).1,
   (network_stats_recompute_on_epoch.1 (fun _ => 1) demoWatcher).2.1⟩

/-- Claim C4, counterexample: the source address check only tests the 0x
start and total length 42, not hexness, so a 42-character address full of
z passes validation; and the amount ceiling is inclusive, so exactly
21000000 * 10^8 passes although it is not below the ceiling. -/
theorem deposit_validation_counterexample :
    validateDepositBeforeProcessing none true (10 ^ 16) 1000 "test_1"
      nonHexAddress 250000000 87400 = Except.ok () ∧
    (nonHexAddress.toList.drop 2).all isHexDigit = false ∧
    validateDepositBeforeProcessing none true (10 ^ 16) 1000 "test_1"
      demoAddress (21000000 * 100000000) 87400 = Except.ok () ∧
    ¬ ((21000000 * 100000000 : Int) < 21000000 * 100000000) := by
  refine ⟨by rfl, by decide, by rfl, by decide⟩

/-- Claim C4, amended: pre-processing validation accepts exactly when the
transaction id is non-empty and 64-hex or test-prefixed, the destination
address starts with 0x and has total length 42 (hexness of the remaining
40 characters is NOT checked), the amount is positive and at most (not
strictly below) 21000000 * 10^8, the unlock time is non-zero and strictly
in the future, the provider is authorized, the gas balance suffices, and
the deposit is not already processed; any violation is rejected locally
with no chain register call, and a past unlock time in particular fails
with the unlock-time error before any chain write. -/
theorem deposit_validation_rules (existing : Option DepositStatus)
    (isAuthorized : Bool) (balance nowS amount unlockTime : Int)
    (btcTxHash userAddress : String)
    (registerOutcome mintOutcome : Except String Unit) :
    (validateDepositBeforeProcessing existing isAuthorized balance nowS
        btcTxHash userAddress amount unlockTime = Except.ok () ↔
      ((match existing with
        | some d => d.depositExists && d.processed
        | none => false) = false ∧
       btcTxHash.length ≠ 0 ∧
       (isRealHash btcTxHash = true ∨ isTestHash btcTxHash = true) ∧
       (userAddress.length ≠ 0 ∧ strStarts userAddress "0x" = true ∧
         userAddress.length = 42) ∧
       (0 < amount ∧ amount ≤ 21000000 * 100000000) ∧
       (unlockTime ≠ 0 ∧ nowS < unlockTime) ∧
       isAuthorized = true ∧ minBalanceWei ≤ balance)) ∧
    (∀ e, validateDepositBeforeProcessing existing isAuthorized balance nowS
        btcTxHash userAddress amount unlockTime = Except.error e →
      (processBabylonDeposit existing isAuthorized balance nowS btcTxHash
        userAddress amount unlockTime registerOutcome
        mintOutcome).registerCalled = false ∧
      (processBabylonDeposit existing isAuthorized balance nowS btcTxHash
        userAddress amount unlockTime registerOutcome
        mintOutcome).success = false) ∧
    ((match existing with
        | some d => d.depositExists && d.processed
        | none => false) = false →
      btcTxHash.length ≠ 0 →
      (isRealHash btcTxHash = true ∨ isTestHash btcTxHash = true) →
      userAddress.length ≠ 0 → strStarts userAddress "0x" = true →
      userAddress.length = 42 → 0 < amount →
      amount ≤ 21000000 * 100000000 → unlockTime ≤ nowS →
      validateDepositBeforeProcessing existing isAuthorized balance nowS
          btcTxHash userAddress amount unlockTime =
        Except.error "Invalid unlock time - must be in the future" ∧
      (processBabylonDeposit existing isAuthorized balance nowS btcTxHash
        userAddress amount unlockTime registerOutcome
        mintOutcome).registerCalled = false) := by
  refine ⟨?_, ?_, ?_⟩
  · constructor
    · intro hok
      unfold validateDepositBeforeProcessing at hok
      split_ifs at hok with h0 h1 h2 h3 h4 h5 h6 h7
      push_neg at h3 h4 h5
      exact ⟨by simpa using h0, h1, h2,
        ⟨h3.1, h3.2.1, h3.2.2⟩, ⟨h4.2.1, h4.2.2⟩, ⟨h5.1, h5.2⟩,
        by simpa using h6, not_lt.mp h7⟩
    · intro hc
      obtain ⟨hc0, hc1, hc2, ⟨ha1, ha2, ha3⟩, ⟨hm1, hm2⟩, ⟨hu1, hu2⟩,
        hauth, hbal⟩ := hc
      unfold validateDepositBeforeProcessing
      rw [if_neg (by simp [hc0])]
      rw [if_neg hc1]
      rw [if_neg (not_not_intro hc2)]
      rw [if_neg (by push_neg; exact ⟨ha1, ha2, ha3⟩)]
      rw [if_neg (by push_neg; exact ⟨by omega, by omega, hm2⟩)]
      rw [if_neg (by push_neg; exact ⟨hu1, hu2⟩)]
      rw [if_neg (by simp [hauth])]
      rw [if_neg (not_lt.mpr hbal)]
  · intro e he
    unfold processBabylonDeposit
    rw [he]
    exact ⟨rfl, rfl⟩
  · intro hx0 hx1 hx2 hx3 hx4 hx5 hx6 hx7 hx8
    have hval : validateDepositBeforeProcessing existing isAuthorized
        balance nowS btcTxHash userAddress amount unlockTime =
        Except.error "Invalid unlock time - must be in the future" := by
      unfold validateDepositBeforeProcessing
      rw [if_neg (by simp [hx0])]
      rw [if_neg hx1]
      rw [if_neg (not_not_intro hx2)]
      rw [if_neg (by push_neg; exact ⟨hx3, hx4, hx5⟩)]
      rw [if_neg (by push_neg; exact ⟨by omega, by omega, hx7⟩)]
      rw [if_pos (by omega)]
    refine ⟨hval, ?_⟩
    unfold processBabylonDeposit
    rw [hval]

/-- Claim C4, witness: a past unlock time on otherwise valid inputs is
rejected with the unlock-time error and the chain register call is never
made. -/
theorem deposit_validation_rules_witness :
    validateDepositBeforeProcessing none true (10 ^ 16) 1000 "test_1"
        demoAddress 250000000 500 =
      Except.error "Invalid unlock time - must be in the future" ∧
    (processBabylonDeposit none true (10 ^ 16) 1000 "test_1" demoAddress
      250000000 500 (Except.ok ()) (Except.ok ())).registerCalled =
        false :=
  (deposit_validation_rules none true (10 ^ 16) 1000 250000000 500 "test_1"
      demoAddress (Except.ok ()) (Except.ok ())).2.2 (by decide) (by decide)
    (by decide) (by decide) (by decide) (by decide) (by decide) (by decide)
    (by decide)

/-- Claim C1: with valid parameters and an authorized provider, register
then mint succeed once: the stored deposit ends processed with the given
user and amount, exactly `amount * 10 ^ 10` token units are minted to the
deposit user, a second registration fails with the duplicate error and a
second mint with the already-processed error. -/
theorem vault_register_then_mint_exactly_once (s : VaultState)
    (sender t user fpid : String) (amount unlockTime now unlockTime2
      now2 : Nat)
    (hsend : sender = s.owner) (hpaused : s.paused = false)
    (hlen : 0 < t.length) (huser : user ≠ addressZero) (hamt : 0 < amount)
    (hul : now < unlockTime)
    (hauth : s.authorizedFinalityProviders fpid = true)
    (hfresh : (s.deposits t).timestamp = 0) (hnow : 0 < now)
    (htok : amount * 10 ^ 10 < UINT256)
    (hub : s.userBalances user + amount * 10 ^ 10 < UINT256)
    (htd : s.totalDeposits + amount * 10 ^ 10 < UINT256)
    (hts : s.tokenTotalSupply + amount * 10 ^ 10 < UINT256)
    (htokAuth : s.vaultAuthorizedOnToken = true)
    (htokPause : s.tokenPaused = false) (hul2 : now2 < unlockTime2) :
    (registerBabylonDeposit s sender now t user amount unlockTime
      fpid).isOk = true ∧
    (mintStBTC (postState (registerBabylonDeposit s sender now t user
      amount unlockTime fpid) s) sender t).isOk = true ∧
    ((postState (mintStBTC (postState (registerBabylonDeposit s sender now
      t user amount unlockTime fpid) s) sender t)
      (postState (registerBabylonDeposit s sender now t user amount
        unlockTime fpid) s)).deposits t).processed = true ∧
    ((postState (mintStBTC (postState (registerBabylonDeposit s sender now
      t user amount unlockTime fpid) s) sender t)
      (postState (registerBabylonDeposit s sender now t user amount
        unlockTime fpid) s)).deposits t).user = user ∧
    ((postState (mintStBTC (postState (registerBabylonDeposit s sender now
      t user amount unlockTime fpid) s) sender t)
      (postState (registerBabylonDeposit s sender now t user amount
        unlockTime fpid) s)).deposits t).amount = amount ∧
    (postState (mintStBTC (postState (registerBabylonDeposit s sender now
      t user amount unlockTime fpid) s) sender t)
      (postState (registerBabylonDeposit s sender now t user amount
        unlockTime fpid) s)).tokenBalances user =
      s.tokenBalances user + amount * 10 ^ 10 ∧
    registerBabylonDeposit (postState (mintStBTC (postState
      (registerBabylonDeposit s sender now t user amount unlockTime fpid)
      s) sender t) (postState (registerBabylonDeposit s sender now t user
      amount unlockTime fpid) s)) sender now2 t user amount unlockTime2
      fpid = Except.error "Deposit already registered" ∧
    mintStBTC (postState (mintStBTC (postState (registerBabylonDeposit s
      sender now t user amount unlockTime fpid) s) sender t) (postState
      (registerBabylonDeposit s sender now t user amount unlockTime fpid)
      s)) sender t = Except.error "Deposit already processed" := by
  have hreg : registerBabylonDeposit s sender now t user amount unlockTime
      fpid = Except.ok { s with deposits := (fun k =>
        if k = t then
          { user := user, amount := amount, btcTxHash := t,
            unlockTime := unlockTime, finalityProvider := fpid,
            timestamp := now, processed := false }
        else s.deposits k) } := by
    unfold registerBabylonDeposit
    rw [if_pos hsend, if_pos hpaused, if_pos hlen, if_pos huser,
      if_pos hamt, if_pos hul, if_pos hauth, if_pos hfresh]
  rw [hreg]
  simp only [postState]
  set s1 : VaultState := { s with deposits := (fun k =>
    if k = t then
      { user := user, amount := amount, btcTxHash := t,
        unlockTime := unlockTime, finalityProvider := fpid,
        timestamp := now, processed := false }
    else s.deposits k) } with hs1
  have hd1 : s1.deposits t =
      { user := user, amount := amount, btcTxHash := t,
        unlockTime := unlockTime, finalityProvider := fpid,
        timestamp := now, processed := false } := by
    rw [hs1]
    simp
  have hmint : mintStBTC s1 sender t = Except.ok { s1 with
      deposits := (fun k =>
        if k = t then { s1.deposits t with processed := true }
        else s1.deposits k),
      userBalances := (fun a =>
        if a = (s1.deposits t).user then
          s1.userBalances a + (s1.deposits t).amount * 10 ^ 10
        else s1.userBalances a),
      totalDeposits := s1.totalDeposits + (s1.deposits t).amount * 10 ^ 10,
      tokenBalances := (fun a =>
        if a = (s1.deposits t).user then
          s1.tokenBalances a + (s1.deposits t).amount * 10 ^ 10
        else s1.tokenBalances a),
      tokenTotalSupply :=
        s1.tokenTotalSupply + (s1.deposits t).amount * 10 ^ 10 } := by
    unfold mintStBTC
    rw [if_pos (show sender = s1.owner from hsend)]
    rw [if_pos (show s1.paused = false from hpaused)]
    rw [if_pos (show 0 < (s1.deposits t).timestamp by rw [hd1]; exact hnow)]
    rw [if_pos (show (s1.deposits t).processed = false by rw [hd1])]
    rw [if_pos (show (s1.deposits t).amount * 10 ^ 10 < UINT256 ∧
        s1.userBalances (s1.deposits t).user + (s1.deposits t).amount *
          10 ^ 10 < UINT256 ∧
        s1.totalDeposits + (s1.deposits t).amount * 10 ^ 10 < UINT256 ∧
        s1.tokenTotalSupply + (s1.deposits t).amount * 10 ^ 10 < UINT256
        by rw [hd1]; exact ⟨htok, hub, htd, hts⟩)]
    rw [if_pos (show s1.vaultAuthorizedOnToken = true from htokAuth)]
    rw [if_pos (show s1.tokenPaused = false from htokPause)]
  rw [hmint]
  simp only [postState]
  refine ⟨rfl, rfl, ?_, ?_, ?_, ?_, ?_, ?_⟩
  · simp [hd1]
  · simp [hd1]
  · simp [hd1]
  · simp
  · unfold registerBabylonDeposit
    rw [if_pos hsend, if_pos hpaused]
    rw [if_pos hlen, if_pos huser, if_pos hamt, if_pos hul2,
      if_pos hauth]
    rw [if_neg]
    simp [hd1]
    omega
  · unfold mintStBTC
    rw [if_pos hsend, if_pos hpaused]
    simp [hd1, hnow]

/-- Claim C1, witness: on a freshly deployed vault, registering the
2.5 BTC-equivalent deposit and minting once mints exactly
2500000000000000000 token units and the repeat calls fail with the
duplicate and already-processed errors. -/
theorem vault_register_then_mint_exactly_once_witness :
    ((registerBabylonDeposit (deployedVault "relayer") "relayer" 1000 "tx1"
      "0xuser1" 250000000 87400 "fp1").isOk = true ∧
    (mintStBTC (postState (registerBabylonDeposit (deployedVault "relayer")
      "relayer" 1000 "tx1" "0xuser1" 250000000 87400 "fp1")
      (deployedVault "relayer")) "relayer" "tx1").isOk = true ∧
    ((postState (mintStBTC (postState (registerBabylonDeposit
      (deployedVault "relayer") "relayer" 1000 "tx1" "0xuser1" 250000000
      87400 "fp1") (deployedVault "relayer")) "relayer" "tx1")
      (postState (registerBabylonDeposit (deployedVault "relayer")
        "relayer" 1000 "tx1" "0xuser1" 250000000 87400 "fp1")
        (deployedVault "relayer"))).deposits "tx1").processed = true ∧
    ((postState (mintStBTC (postState (registerBabylonDeposit
      (deployedVault "relayer") "relayer" 1000 "tx1" "0xuser1" 250000000
      87400 "fp1") (deployedVault "relayer")) "relayer" "tx1")
      (postState (registerBabylonDeposit (deployedVault "relayer")
        "relayer" 1000 "tx1" "0xuser1" 250000000 87400 "fp1")
        (deployedVault "relayer"))).deposits "tx1").user = "0xuser1" ∧
    ((postState (mintStBTC (postState (registerBabylonDeposit
      (deployedVault "relayer") "relayer" 1000 "tx1" "0xuser1" 250000000
      87400 "fp1") (deployedVault "relayer")) "relayer" "tx1")
      (postState (registerBabylonDeposit (deployedVault "relayer")
        "relayer" 1000 "tx1" "0xuser1" 250000000 87400 "fp1")
        (deployedVault "relayer"))).deposits "tx1").amount = 250000000 ∧
    (postState (mintStBTC (postState (registerBabylonDeposit
      (deployedVault "relayer") "relayer" 1000 "tx1" "0xuser1" 250000000
      87400 "fp1") (deployedVault "relayer")) "relayer" "tx1")
      (postState (registerBabylonDeposit (deployedVault "relayer")
        "relayer" 1000 "tx1" "0xuser1" 250000000 87400 "fp1")
        (deployedVault "relayer"))).tokenBalances "0xuser1" =
      (deployedVault "relayer").tokenBalances "0xuser1" +
        250000000 * 10 ^ 10 ∧
    registerBabylonDeposit (postState (mintStBTC (postState
      (registerBabylonDeposit (deployedVault "relayer") "relayer" 1000
      "tx1" "0xuser1" 250000000 87400 "fp1") (deployedVault "relayer"))
      "relayer" "tx1") (postState (registerBabylonDeposit
      (deployedVault "relayer") "relayer" 1000 "tx1" "0xuser1" 250000000
      87400 "fp1") (deployedVault "relayer"))) "relayer" 2000 "tx1"
      "0xuser1" 250000000 90000 "fp1" =
      Except.error "Deposit already registered" ∧
    mintStBTC (postState (mintStBTC (postState (registerBabylonDeposit
      (deployedVault "relayer") "relayer" 1000 "tx1" "0xuser1" 250000000
      87400 "fp1") (deployedVault "relayer")) "relayer" "tx1")
      (postState (registerBabylonDeposit (deployedVault "relayer")
        "relayer" 1000 "tx1" "0xuser1" 250000000 87400 "fp1")
        (deployedVault "relayer"))) "relayer" "tx1" =
      Except.error "Deposit already processed") ∧
    250000000 * 10 ^ 10 = 2500000000000000000 :=
  ⟨vault_register_then_mint_exactly_once (deployedVault "relayer")
    "relayer" "tx1" "0xuser1" "fp1" 250000000 87400 1000 90000 2000 rfl
    rfl (by decide) (by decide) (by decide) (by decide) (by rfl)
    (by rfl) (by decide) (by decide) (by decide) (by decide) (by decide)
    rfl rfl (by decide), by norm_num⟩

end BabylonRelayer
